import Mathlib

/-!
Verification of the nutri-rag RAG pipeline (app.py, src/rag_query.py,
src/index_docs.py) against its natural-language specification.

The Python sources are shallowly embedded as executable Lean definitions:
* external effects (the Supabase `match_documents` RPC, the REST bulk-insert
  endpoint, PDF page extraction, the Gemini generation call) are passed in as
  explicit `Except`/function parameters, so that a `.error` value models the
  Python exception the corresponding client call would raise;
* Python f-string interpolation is modelled losslessly as a record of the
  interpolated fields (no claim depends on the literal rendered text);
* similarity scores and temperatures are exact decimal literals in the source
  and are modelled as rationals.
-/

namespace NutriRag

/-- A row of the `match_documents` similarity-search RPC response:
`source`, `content` and `similarity` are the fields both retrieval
functions read (`match['source']`, `match['content']`, `match['similarity']`). -/
structure Match where
  source : String
  content : String
  similarity : ℚ
  deriving DecidableEq

/-- The value appended to `relevant_chunks` for one match.  The source builds
the f-string `[Fonte: ..., Score: ...] ...` from the match's source, similarity
and content; it is modelled as the record of those three interpolated fields. -/
structure SourcedChunk where
  fonte : String
  score : ℚ
  content : String
  deriving DecidableEq

/-- `content_with_source = f"[Fonte: .., Score: ..] .."` (app.py line 65,
rag_query.py line 81), as the record of the interpolated fields. -/
def contentWithSource (m : Match) : SourcedChunk :=
  { fonte := m.source, score := m.similarity, content := m.content }

/-- The keyword arguments both entry points pass to the
`supabase.rpc('match_documents', ...)` call (minus the query embedding,
which no claim inspects). -/
structure MatchDocumentsParams where
  match_threshold : ℚ
  match_count : Nat
  deriving DecidableEq

/-- `K_CHUNKS = 5` (app.py line 27, rag_query.py line 25). -/
def K_CHUNKS : Nat := 5

/-- The literal parameters of the RPC call in both `get_relevant_chunks`
implementations (app.py lines 57-60, rag_query.py lines 70-77). -/
def matchDocumentsParams : MatchDocumentsParams :=
  { match_threshold := 0.5, match_count := K_CHUNKS }

/-- The `for match in response.data` loop of app.py `get_relevant_chunks`
(lines 62-67): keep a match only when `match['similarity'] > 0.75`. -/
def appCollectChunks : List Match → List SourcedChunk
  | [] => []
  | m :: rest =>
    if m.similarity > 0.75 then contentWithSource m :: appCollectChunks rest
    else appCollectChunks rest

/-- app.py `get_relevant_chunks` (lines 50-71).  `initialized` models the
`if not model_embedding or not supabase` guard; `service` is the outcome of
the embedding + RPC calls inside the `try` block (`.error` = the exception
caught at line 69, answered with `return []`). -/
def appGetRelevantChunks (initialized : Bool) (service : Except Unit (List Match)) :
    List SourcedChunk :=
  if initialized = false then []
  else
    match service with
    | Except.error _ => []
    | Except.ok rows => appCollectChunks rows

/-- rag_query.py `get_relevant_chunks` (lines 55-89).  The loop at lines 79-82
appends `content_with_source` for every row of `response.data`, with no
similarity post-filter; the `except` at line 87 returns `[]`. -/
def ragGetRelevantChunks (initialized : Bool) (service : Except Unit (List Match)) :
    List SourcedChunk :=
  if initialized = false then []
  else
    match service with
    | Except.error _ => []
    | Except.ok rows => rows.map contentWithSource

/-- The configuration record handed to `client_gemini.models.generate_content`
(system instruction and temperature, app.py lines 103-106). -/
structure GenConfig where
  system_instruction : String
  temperature : ℚ
  deriving DecidableEq

/-- The `user_prompt` f-string of app.py line 97, as the record of its
interpolated fields; `context` is `none` when the source writes the literal
text N/A (empty `relevant_chunks`). -/
structure UserPrompt where
  query : String
  context : Option (List SourcedChunk)
  deriving DecidableEq

/-- The RAG-branch system instruction of app.py lines 81-86 (text abbreviated;
no claim depends on its content, only on which branch selects it). -/
def appRagSystemInstruction : String :=
  "Você é um assistente de Nutrição especializado, chamado DiabetesGPT. Responda APENAS com base nos documentos de contexto fornecidos."

/-- The FALLBACK-branch system instruction of app.py lines 91-94 (abbreviated). -/
def appFallbackSystemInstruction : String :=
  "Você é um assistente de Nutrição e saúde. A busca RAG falhou. Responda à pergunta diretamente com seu conhecimento geral de forma informativa e profissional."

/-- The `source` variable of app.py `generate_rag_answer`: RAG when
`relevant_chunks` is truthy (non-empty), FALLBACK otherwise (lines 78-95). -/
def appSource (chunks : List SourcedChunk) : String :=
  if chunks.isEmpty then "FALLBACK" else "RAG"

/-- The `system_instruction` selected by the same branch. -/
def appSystemInstruction (chunks : List SourcedChunk) : String :=
  if chunks.isEmpty then appFallbackSystemInstruction else appRagSystemInstruction

/-- The `GenerateContentConfig` built at app.py lines 103-106, including
`temperature=0.4 if source == "FALLBACK" else 0.2` (line 105). -/
def appGenConfig (chunks : List SourcedChunk) : GenConfig :=
  { system_instruction := appSystemInstruction chunks,
    temperature := if appSource chunks = "FALLBACK" then 0.4 else 0.2 }

/-- The `user_prompt` of app.py line 97. -/
def appUserPrompt (q : String) (chunks : List SourcedChunk) : UserPrompt :=
  { query := q, context := if chunks.isEmpty then none else some chunks }

/-- app.py `generate_rag_answer` (lines 73-112).  `clientInitialized` models
the `if not client_gemini` guard (line 75; the Streamlit entry point stops at
lines 121-123 before ever calling with an uninitialized client); `llm` is the
`generate_content` call, `.error` being the exception caught at line 110.
Returns the `(answer_text, source)` pair of the Python function. -/
def appGenerateRagAnswer (clientInitialized : Bool) (q : String)
    (chunks : List SourcedChunk) (llm : GenConfig → UserPrompt → Except Unit String) :
    String × String :=
  if clientInitialized = false then ("Erro: Cliente Gemini não inicializado.", "ERROR")
  else
    match llm (appGenConfig chunks) (appUserPrompt q chunks) with
    | Except.ok text => (text, appSource chunks)
    | Except.error _ => ("Erro ao gerar resposta com o LLM.", "ERROR")

/-- index_docs.py `extract_text_from_pdf` (lines 41-52).  `doc` is the outcome
of `PdfReader`/page iteration: `.error` models the exception caught at line 50
(corrupt document, answered with `return ""`); a page's `none` models
`page.extract_text()` returning `None`, replaced by `""` via `or ""`. -/
def extract_text_from_pdf (doc : Except Unit (List (Option String))) : String :=
  match doc with
  | Except.error _ => ""
  | Except.ok pages => String.join (pages.map (fun p => p.getD ""))

/-- Modelled from the spec: index_docs.py delegates splitting to langchain's
`RecursiveCharacterTextSplitter(chunk_size=500, chunk_overlap=50)` (lines
56-62), whose code is not part of this repository.  Following the spec's
Chunker contract, the text is cut into segments of at most 500 characters
whose consecutive members share an overlap region of exactly 50 characters
(step 450); `fuel`, instantiated with the text length, only forces
termination and is never exhausted on reachable inputs. -/
def splitTextGo : Nat → List Char → List (List Char)
  | _, [] => []
  | 0, a :: tl => [a :: tl]
  | fuel+1, a :: tl =>
    if (a :: tl).length ≤ 500 then [a :: tl]
    else (a :: tl).take 500 :: splitTextGo fuel ((a :: tl).drop 450)

/-- Modelled from the spec: `text_splitter.split_text(text)` of index_docs.py
line 62 (see `splitTextGo`). -/
def splitText (l : List Char) : List (List Char) := splitTextGo l.length l

/-- Substring containment on character lists: the Python `in` operator on
strings (`'diabetes' in filename.lower()`). -/
def occursIn (needle : List Char) : List Char → Bool
  | [] => needle.isEmpty
  | c :: rest => needle.isPrefixOf (c :: rest) || occursIn needle rest

/-- The test `kw in filename.lower()` of index_docs.py lines 66-68. -/
def containsKw (kw : String) (filename : String) : Bool :=
  occursIn kw.toList (filename.toList.map Char.toLower)

/-- The `doenca` if/elif chain of index_docs.py lines 66-71 (evaluated inside
the chunk loop, but its value depends only on `filename`, so it is the same
for every chunk of a file). -/
def categoryFor (filename : String) : String :=
  if containsKw "diabetes" filename then "Diabetes"
  else if containsKw "cancer" filename || containsKw "estomago" filename then
    "Câncer de Estômago"
  else "Geral/Não Especificado"

/-- One element of the `data` list built by `chunk_text` (index_docs.py lines
73-78); the `metadata` dict is flattened into its two fixed keys `doenca` and
`tema`.  The `embedding` key added later by `generate_embeddings` is not
modelled (no claim reads it). -/
structure ChunkRecord where
  source : String
  chunk_index : Nat
  content : String
  doenca : String
  tema : String
  deriving DecidableEq

/-- index_docs.py `chunk_text` (lines 54-81): split, then
`for i, chunk in enumerate(chunks)` build one record per chunk. -/
def chunk_text (text : String) (filename : String) : List ChunkRecord :=
  (splitText text.toList).enum.map (fun p =>
    { source := filename, chunk_index := p.1, content := String.mk p.2,
      doenca := categoryFor filename, tema := "nutrição" })

/-- The per-file loop of index_docs.py `main` (lines 162-171): extract, and
only `if text:` (non-empty) chunk the file and extend `total_chunks_data`.
Each corpus entry is a filename together with its extraction outcome.
(`generate_embeddings` only adds an `embedding` key and is not modelled.) -/
def processCorpus : List (String × Except Unit (List (Option String))) → List ChunkRecord
  | [] => []
  | (filename, doc) :: rest =>
    if extract_text_from_pdf doc = "" then processCorpus rest
    else chunk_text (extract_text_from_pdf doc) filename ++ processCorpus rest

/-- `BATCH_SIZE = 500` (index_docs.py line 28). -/
def BATCH_SIZE : Nat := 500

/-- The slicing `chunks_data[i:i + BATCH_SIZE]` for
`i in range(0, total_records, BATCH_SIZE)` (index_docs.py lines 107-108):
the record list cut into consecutive batches of 500.  `fuel`, instantiated
with the list length, only forces termination. -/
def toBatchesGo {α : Type} : Nat → List α → List (List α)
  | _, [] => []
  | 0, a :: tl => [a :: tl]
  | fuel+1, a :: tl =>
    (a :: tl).take BATCH_SIZE :: toBatchesGo fuel ((a :: tl).drop BATCH_SIZE)

/-- The batches the insertion loop of index_docs.py iterates over, in order. -/
def toBatches {α : Type} (l : List α) : List (List α) := toBatchesGo l.length l

/-- The insertion loop of index_docs.py lines 107-128.  `fails n` tells
whether the POST of batch `n` raises (`HTTPError`, `RequestException` and the
generic `except` all `break` identically); `n` numbers the batches from 0.
Returns `(success_count, indices of the batches attempted)`: a successful
batch adds its length to `success_count` and the loop continues; a failing
batch is attempted (the POST is sent) but adds nothing and the loop breaks. -/
def insertBatchesGo {α : Type} (fails : Nat → Bool) : Nat → List (List α) → Nat × List Nat
  | _, [] => (0, [])
  | n, batch :: rest =>
    if fails n then (0, [n])
    else
      (batch.length + (insertBatchesGo fails (n+1) rest).1,
       n :: (insertBatchesGo fails (n+1) rest).2)

/-- index_docs.py `insert_data_to_supabase_api` (lines 98-133): run the batch
loop from batch 0; the first component is the `success_count` the function
reports against `total_records` at lines 130-133. -/
def insert_data_to_supabase_api {α : Type} (fails : Nat → Bool) (chunksData : List α) :
    Nat × List Nat :=
  insertBatchesGo fails 0 (toBatches chunksData)

/-- Concatenation-with-overlap-removed: the first chunk whole, every later
chunk with its first 50 (overlapped) characters removed. -/
def reconstructWithOverlapRemoved : List (List Char) → List Char
  | [] => []
  | c :: rest => c ++ (rest.map (fun d => d.drop 50)).flatten

end NutriRag

namespace NutriRag

/-- C3: whichever retrieval entry point is used, a failed similarity-search
call (`.error`, the caught exception) and an empty row set both yield the
empty list, never a propagated exception (the functions are total and return
`[]` in both cases, for either initialization state). -/
theorem retrieval_failure_yields_empty_list (initialized : Bool) :
    appGetRelevantChunks initialized (Except.error ()) = [] ∧
    appGetRelevantChunks initialized (Except.ok []) = [] ∧
    ragGetRelevantChunks initialized (Except.error ()) = [] ∧
    ragGetRelevantChunks initialized (Except.ok []) = [] := by
  cases initialized <;>
    simp [appGetRelevantChunks, ragGetRelevantChunks, appCollectChunks]

/-- C1 counterexample: the CLI retrieval (rag_query.py `get_relevant_chunks`)
returns a match of similarity 0.6 ≤ 0.75 to its caller, so the client-side
post-filter is not applied on every retrieval call. -/
theorem rag_retrieval_returns_low_similarity_match :
    ragGetRelevantChunks true
        (Except.ok [{ source := "doc.pdf", content := "texto", similarity := 0.6 }]) =
      [{ fonte := "doc.pdf", score := 0.6, content := "texto" }] ∧
    ¬ ((0.6 : ℚ) > 0.75) := by
  constructor
  · rfl
  · norm_num

/-- C1 amended: the post-filter is applied by the Streamlit retrieval
(app.py): every chunk it returns carries similarity strictly greater than
0.75.  The CLI retrieval (rag_query.py) applies no post-filter: it returns
exactly one chunk per service row. -/
theorem app_retrieval_filters_above_075 :
    (∀ (initialized : Bool) (service : Except Unit (List Match))
        (c : SourcedChunk), c ∈ appGetRelevantChunks initialized service →
        c.score > 0.75) ∧
    (∀ rows : List Match,
        ragGetRelevantChunks true (Except.ok rows) = rows.map contentWithSource) := by
  constructor
  · intro initialized service c hc
    cases initialized with
    | false => simp [appGetRelevantChunks] at hc
    | true =>
      cases service with
      | error e => simp [appGetRelevantChunks] at hc
      | ok rows =>
        simp only [appGetRelevantChunks, Bool.true_eq_false, if_neg, ite_false] at hc
        induction rows with
        | nil => simp [appCollectChunks] at hc
        | cons m rest ih =>
          by_cases hm : m.similarity > 0.75
          · rw [appCollectChunks, if_pos hm] at hc
            rcases List.mem_cons.mp hc with h | h
            · subst h; exact hm
            · exact ih h
          · rw [appCollectChunks, if_neg hm] at hc
            exact ih hc
  · intro rows
    rfl

/-- C1 amended, witness: a concrete service response with one row of
similarity 0.8 passes the app-side filter and indeed scores above 0.75. -/
theorem app_retrieval_filters_above_075_witness :
    ({ fonte := "a.pdf", score := 0.8, content := "c" } : SourcedChunk) ∈
      appGetRelevantChunks true
        (Except.ok [{ source := "a.pdf", content := "c", similarity := 0.8 }]) ∧
    ({ fonte := "a.pdf", score := 0.8, content := "c" } : SourcedChunk).score > 0.75 := by
  have hmem : ({ fonte := "a.pdf", score := 0.8, content := "c" } : SourcedChunk) ∈
      appGetRelevantChunks true
        (Except.ok [{ source := "a.pdf", content := "c", similarity := 0.8 }]) := by
    show _ ∈ appCollectChunks _
    rw [appCollectChunks, if_pos (by norm_num)]
    exact List.mem_cons_self _ _
  exact ⟨hmem, app_retrieval_filters_above_075.1 true _ _ hmem⟩

/-- C2: with an initialized Gemini client (guaranteed at the only call site by
the stop-guard of app.py lines 121-123), the Answerer returns the mode label
alongside the answer text: on a successful generation call the result is the
pair of the generated text and `appSource chunks`, where the mode is RAG
(grounded) iff the matches list passed in is non-empty and FALLBACK iff it is
empty; and the mode is ERROR iff the generation call fails, regardless of the
matches. -/
theorem answerer_mode_contract (clientInitialized : Bool) (q : String)
    (chunks : List SourcedChunk) (llm : GenConfig → UserPrompt → Except Unit String)
    (hinit : clientInitialized = true) :
    (∀ t, llm (appGenConfig chunks) (appUserPrompt q chunks) = Except.ok t →
      appGenerateRagAnswer clientInitialized q chunks llm = (t, appSource chunks) ∧
      (appSource chunks = "RAG" ↔ chunks ≠ []) ∧
      (appSource chunks = "FALLBACK" ↔ chunks = [])) ∧
    ((appGenerateRagAnswer clientInitialized q chunks llm).2 = "ERROR" ↔
      llm (appGenConfig chunks) (appUserPrompt q chunks) = Except.error ()) := by
  subst hinit
  constructor
  · intro t ht
    refine ⟨by simp [appGenerateRagAnswer, ht], ?_, ?_⟩
    · cases chunks <;> simp [appSource]
    · cases chunks <;> simp [appSource]
  · cases hcall : llm (appGenConfig chunks) (appUserPrompt q chunks) with
    | ok t =>
      simp only [appGenerateRagAnswer, Bool.true_eq_false, if_false, hcall, ite_false]
      cases chunks <;> simp [appSource]
    | error e => simp [appGenerateRagAnswer, hcall]

/-- C2 witness: with no matches and a successful generation call the Answerer
returns the generated text with mode FALLBACK. -/
theorem answerer_mode_contract_witness :
    (true = true) ∧
    appGenerateRagAnswer true "pergunta" [] (fun _ _ => Except.ok "resposta") =
      ("resposta", "FALLBACK") :=
  ⟨rfl,
    ((answerer_mode_contract true "pergunta" []
      (fun _ _ => Except.ok "resposta") rfl).1 "resposta" rfl).1⟩

/-- C8: the generation config the Answerer passes to the LLM call carries
temperature 0.2 when the matches list is non-empty (mode RAG/GROUNDED) and
temperature 0.4 when it is empty (mode FALLBACK). -/
theorem generation_temperature_by_mode (chunks : List SourcedChunk) :
    (chunks ≠ [] → (appGenConfig chunks).temperature = 0.2) ∧
    (chunks = [] → (appGenConfig chunks).temperature = 0.4) := by
  constructor
  · intro h
    cases chunks with
    | nil => exact absurd rfl h
    | cons a l => simp [appGenConfig, appSource]
  · intro h
    subst h
    simp [appGenConfig, appSource]

/-- C8 witness: one non-empty and one empty matches list, with the resulting
temperatures 0.2 and 0.4. -/
theorem generation_temperature_by_mode_witness :
    (([{ fonte := "f", score := 0.9, content := "c" }] : List SourcedChunk) ≠ [] ∧
      (appGenConfig [{ fonte := "f", score := 0.9, content := "c" }]).temperature = 0.2) ∧
    (([] : List SourcedChunk) = [] ∧ (appGenConfig []).temperature = 0.4) :=
  ⟨⟨by simp, (generation_temperature_by_mode _).1 (by simp)⟩,
   ⟨rfl, (generation_temperature_by_mode _).2 rfl⟩⟩

/-- C5: a document whose extraction fails entirely (`Except.error`, the caught
exception of index_docs.py line 50) yields the empty string rather than a
propagated exception, is skipped — it contributes no chunk records — and
processing continues with the remaining documents: wherever the corrupt
document sits in the corpus, the result is exactly the records of the
documents before it followed by the records of the documents after it. -/
theorem corrupt_document_skipped
    (pre post : List (String × Except Unit (List (Option String))))
    (filename : String) :
    extract_text_from_pdf (Except.error ()) = "" ∧
    processCorpus (pre ++ (filename, Except.error ()) :: post) =
      processCorpus pre ++ processCorpus post := by
  refine ⟨rfl, ?_⟩
  induction pre with
  | nil => simp [processCorpus, extract_text_from_pdf]
  | cons hd tl ih =>
    obtain ⟨fn, doc⟩ := hd
    by_cases h : extract_text_from_pdf doc = ""
    · simp [processCorpus, h, ih]
    · simp [processCorpus, h, ih]

/-- C6: every chunk record produced by `chunk_text` carries the category
determined, deterministically from the source filename alone, by
case-insensitive substring matching, the rules being evaluated in order:
a filename containing the diabetes keyword is tagged Diabetes; otherwise one
containing the cancer or estomago keyword is tagged Câncer de Estômago; any
other filename is tagged Geral/Não Especificado. -/
theorem chunk_category_by_filename_keywords (text filename : String)
    (r : ChunkRecord) (hr : r ∈ chunk_text text filename) :
    (containsKw "diabetes" filename = true → r.doenca = "Diabetes") ∧
    (containsKw "diabetes" filename = false →
      (containsKw "cancer" filename || containsKw "estomago" filename) = true →
      r.doenca = "Câncer de Estômago") ∧
    (containsKw "diabetes" filename = false → containsKw "cancer" filename = false →
      containsKw "estomago" filename = false →
      r.doenca = "Geral/Não Especificado") := by
  have hdoenca : r.doenca = categoryFor filename := by
    rcases List.mem_map.mp hr with ⟨p, _, rfl⟩
    rfl
  refine ⟨?_, ?_, ?_⟩
  · intro h1
    rw [hdoenca, categoryFor, if_pos h1]
  · intro h1 h2
    rw [hdoenca, categoryFor, if_neg (by simp [h1]), if_pos h2]
  · intro h1 h2 h3
    rw [hdoenca, categoryFor, if_neg (by simp [h1]), if_neg (by simp [h2, h3])]

/-- C6 witness: a mixed-case filename containing the diabetes keyword
produces a record tagged Diabetes. -/
theorem chunk_category_by_filename_keywords_witness :
    ({ source := "DiAbEtEs_guia.pdf", chunk_index := 0, content := "abc",
        doenca := "Diabetes", tema := "nutrição" } : ChunkRecord) ∈
      chunk_text "abc" "DiAbEtEs_guia.pdf" ∧
    containsKw "diabetes" "DiAbEtEs_guia.pdf" = true ∧
    ({ source := "DiAbEtEs_guia.pdf", chunk_index := 0, content := "abc",
        doenca := "Diabetes", tema := "nutrição" } : ChunkRecord).doenca = "Diabetes" :=
  ⟨by decide, by decide,
    (chunk_category_by_filename_keywords "abc" "DiAbEtEs_guia.pdf" _ (by decide)).1
      (by decide)⟩

/-- C10: a source filename containing the diabetes keyword together with a
stomach-cancer keyword (cancer or estomago) is always tagged Diabetes:
the diabetes rule is evaluated first, so it takes precedence. -/
theorem diabetes_keyword_precedence (text filename : String) (r : ChunkRecord)
    (hr : r ∈ chunk_text text filename)
    (hd : containsKw "diabetes" filename = true)
    (ho : containsKw "cancer" filename = true ∨
      containsKw "estomago" filename = true) :
    r.doenca = "Diabetes" := by
  rcases List.mem_map.mp hr with ⟨p, _, rfl⟩
  show categoryFor filename = "Diabetes"
  rw [categoryFor, if_pos hd]

/-- C10 witness: a filename containing both the diabetes and the cancer
keyword is tagged Diabetes. -/
theorem diabetes_keyword_precedence_witness :
    ({ source := "diabetes_cancer.pdf", chunk_index := 0, content := "xyz",
        doenca := "Diabetes", tema := "nutrição" } : ChunkRecord) ∈
      chunk_text "xyz" "diabetes_cancer.pdf" ∧
    containsKw "diabetes" "diabetes_cancer.pdf" = true ∧
    (containsKw "cancer" "diabetes_cancer.pdf" = true ∨
      containsKw "estomago" "diabetes_cancer.pdf" = true) ∧
    ({ source := "diabetes_cancer.pdf", chunk_index := 0, content := "xyz",
        doenca := "Diabetes", tema := "nutrição" } : ChunkRecord).doenca = "Diabetes" :=
  ⟨by decide, by decide, by decide,
    diabetes_keyword_precedence "xyz" "diabetes_cancer.pdf" _ (by decide) (by decide)
      (by decide)⟩

theorem toBatchesGo_nil {α : Type} (fuel : Nat) : toBatchesGo (α := α) fuel [] = [] := by
  cases fuel <;> rfl

theorem toBatchesGo_cons {α : Type} (fuel : Nat) (a : α) (tl : List α) :
    toBatchesGo (fuel + 1) (a :: tl) =
      (a :: tl).take BATCH_SIZE :: toBatchesGo fuel ((a :: tl).drop BATCH_SIZE) := rfl

theorem toBatchesGo_flatten {α : Type} :
    ∀ (fuel : Nat) (l : List α), l.length ≤ fuel → (toBatchesGo fuel l).flatten = l := by
  intro fuel
  induction fuel with
  | zero =>
    intro l hl
    rw [List.eq_nil_of_length_eq_zero (Nat.le_zero.mp hl)]
    rfl
  | succ fuel ih =>
    intro l hl
    cases l with
    | nil => rfl
    | cons a tl =>
      have hstep : ((a :: tl).drop BATCH_SIZE).length ≤ fuel := by
        rw [List.length_drop]
        simp only [BATCH_SIZE, List.length_cons] at hl ⊢
        omega
      rw [toBatchesGo_cons, List.flatten_cons, ih _ hstep, List.take_append_drop]

theorem toBatchesGo_size_le {α : Type} :
    ∀ (fuel : Nat) (l : List α), l.length ≤ fuel →
      ∀ b ∈ toBatchesGo fuel l, b.length ≤ BATCH_SIZE := by
  intro fuel
  induction fuel with
  | zero =>
    intro l hl b hb
    rw [List.eq_nil_of_length_eq_zero (Nat.le_zero.mp hl)] at hb
    simp [toBatchesGo_nil] at hb
  | succ fuel ih =>
    intro l hl b hb
    cases l with
    | nil => simp [toBatchesGo_nil] at hb
    | cons a tl =>
      rw [toBatchesGo_cons] at hb
      have hstep : ((a :: tl).drop BATCH_SIZE).length ≤ fuel := by
        rw [List.length_drop]
        simp only [BATCH_SIZE, List.length_cons] at hl ⊢
        omega
      rcases List.mem_cons.mp hb with rfl | hmem
      · exact List.length_take_le _ _
      · exact ih _ hstep b hmem

theorem toBatchesGo_full_batches {α : Type} :
    ∀ (fuel : Nat) (l : List α), l.length ≤ fuel →
      ∀ i (h : i + 1 < (toBatchesGo fuel l).length),
        ((toBatchesGo fuel l).get ⟨i, Nat.lt_of_succ_lt h⟩).length = BATCH_SIZE := by
  intro fuel
  induction fuel with
  | zero =>
    intro l hl i h
    rw [List.eq_nil_of_length_eq_zero (Nat.le_zero.mp hl)] at h
    simp [toBatchesGo_nil] at h
  | succ fuel ih =>
    intro l hl i h
    cases l with
    | nil => simp [toBatchesGo_nil] at h
    | cons a tl =>
      have hstep : ((a :: tl).drop BATCH_SIZE).length ≤ fuel := by
        rw [List.length_drop]
        simp only [BATCH_SIZE, List.length_cons] at hl ⊢
        omega
      cases i with
      | zero =>
        have hne : toBatchesGo fuel ((a :: tl).drop BATCH_SIZE) ≠ [] := by
          intro hnil
          rw [toBatchesGo_cons, hnil] at h
          simp at h
        have hlong : BATCH_SIZE < (a :: tl).length := by
          by_contra hc
          exact hne (by
            rw [List.drop_eq_nil_iff.mpr (by omega), toBatchesGo_nil])
        show ((a :: tl).take BATCH_SIZE).length = BATCH_SIZE
        rw [List.length_take]
        omega
      | succ i =>
        have h' : i + 1 < (toBatchesGo fuel ((a :: tl).drop BATCH_SIZE)).length := by
          rw [toBatchesGo_cons] at h
          simpa using h
        exact ih _ hstep i h'

theorem insertBatchesGo_first_failure {α : Type} (fails : Nat → Bool) :
    ∀ (bs : List (List α)) (n j : Nat), j < bs.length →
      (∀ i, i < j → fails (n + i) = false) → fails (n + j) = true →
      insertBatchesGo fails n bs =
        (((bs.take j).map List.length).sum,
          (List.range (j + 1)).map (fun i => n + i)) := by
  intro bs
  induction bs with
  | nil =>
    intro n j hj _ _
    simp at hj
  | cons b rest ih =>
    intro n j hj hbef hfail
    cases j with
    | zero =>
      have h0 : fails n = true := by simpa using hfail
      rw [insertBatchesGo, if_pos h0]
      rfl
    | succ j =>
      have h0 : fails n = false := by simpa using hbef 0 (Nat.succ_pos j)
      have hr := ih (n + 1) j
        (by simp only [List.length_cons] at hj; omega)
        (fun i hi => by
          have hb := hbef (i + 1) (by omega)
          rwa [show n + (i + 1) = n + 1 + i by omega] at hb)
        (by rwa [show n + (j + 1) = n + 1 + j by omega] at hfail)
      rw [insertBatchesGo, if_neg (by simp [h0]), hr]
      refine Prod.ext ?_ ?_
      · simp [List.take_succ_cons]
      · show n :: (List.range (j + 1)).map (fun i => n + 1 + i) =
          (List.range (j + 1 + 1)).map (fun i => n + i)
        conv_rhs => rw [List.range_succ_eq_map, List.map_cons, List.map_map]
        refine congrArg₂ _ rfl ?_
        exact List.map_congr_left (fun a _ => by simp [Function.comp]; omega)

/-- C4: `insert_data_to_supabase_api` writes the records as consecutive
batches of fixed size `BATCH_SIZE = 500` in order (their concatenation is the
original record list, no batch exceeds 500 records, and every batch except
the last has exactly 500); and when batch `j` is the first batch whose POST
fails, exactly the batches `0..j` are attempted — no batch after the failing
one — and the reported success count is the number of records in the batches
that succeeded before the failure. -/
theorem batch_insert_halts_on_first_failure {α : Type} (l : List α)
    (fails : Nat → Bool) (j : Nat) (hj : j < (toBatches l).length)
    (hbef : ∀ i, i < j → fails i = false) (hfail : fails j = true) :
    insert_data_to_supabase_api fails l =
      ((((toBatches l).take j).map List.length).sum, List.range (j + 1)) ∧
    (toBatches l).flatten = l ∧
    (∀ b ∈ toBatches l, b.length ≤ BATCH_SIZE) ∧
    (∀ i (h : i + 1 < (toBatches l).length),
      ((toBatches l).get ⟨i, Nat.lt_of_succ_lt h⟩).length = BATCH_SIZE) := by
  refine ⟨?_, toBatchesGo_flatten l.length l le_rfl,
    toBatchesGo_size_le l.length l le_rfl,
    toBatchesGo_full_batches l.length l le_rfl⟩
  have h := insertBatchesGo_first_failure fails (toBatches l) 0 j hj
    (fun i hi => by simpa using hbef i hi) (by simpa using hfail)
  rw [insert_data_to_supabase_api, h]
  simp

set_option maxRecDepth 20000 in
/-- C4 witness: 501 records cut into batches of 500 and 1; batch 0 succeeds,
batch 1 fails, the attempted batches are exactly 0 and 1 and the reported
success count is the 500 records of batch 0. -/
theorem batch_insert_halts_on_first_failure_witness :
    (1 < (toBatches (List.range 501)).length ∧
      (∀ i, i < 1 → (fun n => n == 1) i = false) ∧ ((fun n => n == 1) 1 = true)) ∧
    insert_data_to_supabase_api (fun n => n == 1) (List.range 501) = (500, [0, 1]) := by
  refine ⟨⟨by decide, by decide, by decide⟩, ?_⟩
  have h := (batch_insert_halts_on_first_failure (List.range 501) (fun n => n == 1) 1
    (by decide) (by decide) (by decide)).1
  rw [h]
  decide

theorem appCollectChunks_eq_filter (rows : List Match) :
    appCollectChunks rows =
      (rows.filter (fun m => m.similarity > 0.75)).map contentWithSource := by
  induction rows with
  | nil => rfl
  | cons m rest ih =>
    by_cases hm : m.similarity > 0.75
    · rw [appCollectChunks, if_pos hm, List.filter_cons_of_pos (by simpa using hm),
        List.map_cons, ih]
    · rw [appCollectChunks, if_neg hm, List.filter_cons_of_neg (by simpa using hm), ih]

/-- C9: both retrieval entry points pass `match_threshold = 0.5` and
`match_count = K_CHUNKS = 5` to the similarity-search service; and whenever
the service response honors its contract (at most `match_count` rows, sorted
descending by similarity), each entry point returns at most `K_CHUNKS`
matches, themselves sorted descending by similarity score (the app entry
point filters, preserving order; the CLI entry point maps, preserving order
and count). -/
theorem retriever_params_count_and_order :
    matchDocumentsParams.match_threshold = 0.5 ∧
    matchDocumentsParams.match_count = 5 ∧
    ∀ (initialized : Bool) (rows : List Match),
      rows.length ≤ K_CHUNKS →
      List.Sorted (· ≥ ·) (rows.map Match.similarity) →
      ((appGetRelevantChunks initialized (Except.ok rows)).length ≤ K_CHUNKS ∧
        List.Sorted (· ≥ ·)
          ((appGetRelevantChunks initialized (Except.ok rows)).map SourcedChunk.score) ∧
        (ragGetRelevantChunks initialized (Except.ok rows)).length ≤ K_CHUNKS ∧
        List.Sorted (· ≥ ·)
          ((ragGetRelevantChunks initialized (Except.ok rows)).map SourcedChunk.score)) := by
  refine ⟨rfl, rfl, ?_⟩
  intro initialized rows hlen hsort
  cases initialized with
  | false =>
    refine ⟨by simp [appGetRelevantChunks, K_CHUNKS], by simp [appGetRelevantChunks], ?_, ?_⟩
    · simp [ragGetRelevantChunks, K_CHUNKS]
    · simp [ragGetRelevantChunks]
  | true =>
    have happ : appGetRelevantChunks true (Except.ok rows) =
        (rows.filter (fun m => m.similarity > 0.75)).map contentWithSource := by
      show appCollectChunks rows = _
      exact appCollectChunks_eq_filter rows
    have hrag : ragGetRelevantChunks true (Except.ok rows) = rows.map contentWithSource := rfl
    have hpairwise : List.Pairwise (fun a b : Match => a.similarity ≥ b.similarity) rows :=
      (List.pairwise_map).mp hsort
    refine ⟨?_, ?_, ?_, ?_⟩
    · rw [happ, List.length_map]
      exact le_trans (List.length_filter_le _ rows) hlen
    · rw [happ, List.map_map]
      have : List.Pairwise (fun a b : Match => a.similarity ≥ b.similarity)
          (rows.filter (fun m => m.similarity > 0.75)) := hpairwise.filter _
      exact (List.pairwise_map).mpr this
    · rw [hrag, List.length_map]
      exact hlen
    · rw [hrag, List.map_map]
      exact (List.pairwise_map).mpr hpairwise

/-- C9 witness: a service response of two rows, sorted descending, within the
match count; both entry points return at most five matches, sorted
descending. -/
theorem retriever_params_count_and_order_witness :
    ((([⟨"a", "x", 0.9⟩, ⟨"b", "y", 0.8⟩] : List Match).length ≤ K_CHUNKS) ∧
      List.Sorted (· ≥ ·)
        (([⟨"a", "x", 0.9⟩, ⟨"b", "y", 0.8⟩] : List Match).map Match.similarity)) ∧
    ((appGetRelevantChunks true
        (Except.ok [⟨"a", "x", 0.9⟩, ⟨"b", "y", 0.8⟩])).length ≤ K_CHUNKS ∧
      List.Sorted (· ≥ ·)
        ((appGetRelevantChunks true
          (Except.ok [⟨"a", "x", 0.9⟩, ⟨"b", "y", 0.8⟩])).map SourcedChunk.score) ∧
      (ragGetRelevantChunks true
        (Except.ok [⟨"a", "x", 0.9⟩, ⟨"b", "y", 0.8⟩])).length ≤ K_CHUNKS ∧
      List.Sorted (· ≥ ·)
        ((ragGetRelevantChunks true
          (Except.ok [⟨"a", "x", 0.9⟩, ⟨"b", "y", 0.8⟩])).map SourcedChunk.score)) := by
  have h1 : ([⟨"a", "x", 0.9⟩, ⟨"b", "y", 0.8⟩] : List Match).length ≤ K_CHUNKS := by
    decide
  have h2 : List.Sorted (· ≥ ·)
      (([⟨"a", "x", 0.9⟩, ⟨"b", "y", 0.8⟩] : List Match).map Match.similarity) := by
    norm_num [List.sorted_cons]
  exact ⟨⟨h1, h2⟩, retriever_params_count_and_order.2.2 true _ h1 h2⟩

theorem splitTextGo_nil (fuel : Nat) : splitTextGo fuel [] = [] := by
  cases fuel <;> rfl

theorem splitTextGo_head (fuel : Nat) (l : List Char) (hne : l ≠ [])
    (hl : l.length ≤ fuel) :
    ∃ t, splitTextGo fuel l = l.take 500 :: t := by
  cases l with
  | nil => exact absurd rfl hne
  | cons a tl =>
    cases fuel with
    | zero => simp at hl
    | succ fuel =>
      by_cases h : (a :: tl).length ≤ 500
      · refine ⟨[], ?_⟩
        rw [splitTextGo, if_pos h, List.take_of_length_le h]
      · exact ⟨_, by rw [splitTextGo, if_neg h]⟩

theorem splitTextGo_length_le :
    ∀ (fuel : Nat) (l : List Char), l.length ≤ fuel →
      ∀ c ∈ splitTextGo fuel l, c.length ≤ 500 := by
  intro fuel
  induction fuel with
  | zero =>
    intro l hl c hc
    rw [List.eq_nil_of_length_eq_zero (Nat.le_zero.mp hl)] at hc
    simp [splitTextGo_nil] at hc
  | succ fuel ih =>
    intro l hl c hc
    cases l with
    | nil => simp [splitTextGo_nil] at hc
    | cons a tl =>
      rw [splitTextGo] at hc
      by_cases h : (a :: tl).length ≤ 500
      · rw [if_pos h] at hc
        rcases List.mem_singleton.mp hc with rfl
        exact h
      · rw [if_neg h] at hc
        have hstep : ((a :: tl).drop 450).length ≤ fuel := by
          rw [List.length_drop]
          simp only [List.length_cons] at hl ⊢
          omega
        rcases List.mem_cons.mp hc with rfl | hmem
        · exact List.length_take_le _ _
        · exact ih _ hstep c hmem

theorem splitTextGo_chain :
    ∀ (fuel : Nat) (l : List Char), l.length ≤ fuel →
      List.Chain' (fun a b => 50 ≤ a.length ∧ 50 ≤ b.length ∧
        a.drop (a.length - 50) = b.take 50) (splitTextGo fuel l) := by
  intro fuel
  induction fuel with
  | zero =>
    intro l hl
    rw [List.eq_nil_of_length_eq_zero (Nat.le_zero.mp hl), splitTextGo_nil]
    exact List.chain'_nil
  | succ fuel ih =>
    intro l hl
    cases l with
    | nil => rw [splitTextGo_nil]; exact List.chain'_nil
    | cons a tl =>
      rw [splitTextGo]
      by_cases h : (a :: tl).length ≤ 500
      · rw [if_pos h]
        exact List.chain'_singleton _
      · rw [if_neg h]
        have hlong : 500 < (a :: tl).length := by omega
        have hstep : ((a :: tl).drop 450).length ≤ fuel := by
          rw [List.length_drop]
          simp only [List.length_cons] at hl ⊢
          omega
        have hdroplen : ((a :: tl).drop 450).length = (a :: tl).length - 450 :=
          List.length_drop 450 _
        have hne : (a :: tl).drop 450 ≠ [] := by
          intro hnil
          rw [List.drop_eq_nil_iff] at hnil
          omega
        obtain ⟨t, ht⟩ := splitTextGo_head fuel _ hne hstep
        rw [ht]
        refine List.chain'_cons.mpr ⟨⟨?_, ?_, ?_⟩, ?_⟩
        · rw [List.length_take]
          omega
        · rw [List.length_take, hdroplen]
          omega
        · have htakelen : ((a :: tl).take 500).length = 500 := by
            rw [List.length_take]
            omega
          rw [htakelen]
          show ((a :: tl).take 500).drop 450 = _
          rw [List.drop_take, List.take_take]
          norm_num
        · rw [← ht]
          exact ih _ hstep

theorem splitTextGo_reconstruct :
    ∀ (fuel : Nat) (l : List Char), l.length ≤ fuel →
      reconstructWithOverlapRemoved (splitTextGo fuel l) = l := by
  intro fuel
  induction fuel with
  | zero =>
    intro l hl
    rw [List.eq_nil_of_length_eq_zero (Nat.le_zero.mp hl), splitTextGo_nil]
    rfl
  | succ fuel ih =>
    intro l hl
    cases l with
    | nil => rw [splitTextGo_nil]; rfl
    | cons a tl =>
      rw [splitTextGo]
      by_cases h : (a :: tl).length ≤ 500
      · rw [if_pos h]
        simp [reconstructWithOverlapRemoved]
      · rw [if_neg h]
        have hstep : ((a :: tl).drop 450).length ≤ fuel := by
          rw [List.length_drop]
          simp only [List.length_cons] at hl ⊢
          omega
        have hne : (a :: tl).drop 450 ≠ [] := by
          intro hnil
          rw [List.drop_eq_nil_iff] at hnil
          omega
        obtain ⟨t, ht⟩ := splitTextGo_head fuel _ hne hstep
        have hrec := ih _ hstep
        rw [ht] at hrec
        have h50 : 50 ≤ (((a :: tl).drop 450).take 500).length := by
          rw [List.length_take, List.length_drop]
          simp only [List.length_cons] at h ⊢
          omega
        rw [ht, reconstructWithOverlapRemoved, List.map_cons, List.flatten_cons,
          ← List.drop_append_of_le_length h50]
        have hrec' : ((a :: tl).drop 450).take 500 ++ (t.map (fun d => d.drop 50)).flatten =
            (a :: tl).drop 450 := hrec
        rw [hrec', List.drop_drop]
        norm_num

/-- C7 (chunk splitting modelled from the spec, see `splitTextGo`): every
produced chunk has content length at most the target size 500 (in particular
every chunk except the last of a source); adjacent chunks from the same
source overlap by exactly the configured 50 characters — the last 50
characters of a chunk are the first 50 of the next and both chunks are at
least 50 long — with no adjacent pair when the source text is not longer
than one chunk; and concatenating the chunks with the overlap removed
reconstructs the original text. -/
theorem chunker_bounds_overlap_reconstruction (l : List Char) :
    (∀ c ∈ splitText l, c.length ≤ 500) ∧
    List.Chain' (fun a b => 50 ≤ a.length ∧ 50 ≤ b.length ∧
      a.drop (a.length - 50) = b.take 50) (splitText l) ∧
    reconstructWithOverlapRemoved (splitText l) = l :=
  ⟨splitTextGo_length_le l.length l le_rfl, splitTextGo_chain l.length l le_rfl,
    splitTextGo_reconstruct l.length l le_rfl⟩

/-- C7 witness: a three-character text is one chunk of length at most 500. -/
theorem chunker_bounds_overlap_reconstruction_witness :
    (['a', 'b', 'c'] ∈ splitText ['a', 'b', 'c']) ∧
    (['a', 'b', 'c'] : List Char).length ≤ 500 :=
  ⟨by decide, (chunker_bounds_overlap_reconstruction ['a', 'b', 'c']).1 _ (by decide)⟩

end NutriRag
